import Mathlib

/-!
Verification of the reconciliation engine in `analyze_final.py`.

The Python analysis is embedded shallowly: a loaded transaction line becomes an
`Entry` (the record loader itself is out of scope; `Entry` fields hold the
already-stripped strings the loader produces at lines 25-34 of the source, with
thousands separators removed from `amount`).  Python's `int()` becomes
`parseAmount : String → Option Int`, the anchored regexes on date fields become
`dateOnly`/`monthOnly`, `defaultdict` groupings become insertion-ordered
association lists, and `list.sort` becomes a stable insertion sort under the
corresponding total preorder.  Regex character classes (`\d`, `[A-Za-z0-9]`,
`\b`) are modelled over ASCII, which covers the identifier formats the script
recognises.
-/

/-- One parsed transaction row (source lines 25-34).  Fields are the stripped
strings of the Python `entry` dict; `amount` is the comma-free amount string. -/
structure Entry where
  no : Nat
  date : String
  type : String
  category : String
  description : String
  counterparty : String
  method : String
  amount : String
deriving DecidableEq, Repr

/-- Python's substring operator `needle in hay`, over character lists. -/
def hasSub (needle : List Char) : List Char → Bool
  | [] => needle.isEmpty
  | x :: xs => needle.isPrefixOf (x :: xs) || hasSub needle xs

/-- Substring containment between strings (`tok in hay` in Python). -/
def containsTok (hay tok : String) : Bool :=
  hasSub tok.toList hay.toList

/-- Sale condition (source line 39): the date field contains the sale marker and
the category field equals the sale marker exactly. -/
def saleTest (e : Entry) : Bool :=
  containsTok e.date "売上" && decide (e.category = "売上")

/-- Transfer condition (source line 42): the date field and the category field
both contain the transfer marker as a substring. -/
def transferTest (e : Entry) : Bool :=
  containsTok e.date "振替" && containsTok e.category "振替"

/-- Expense condition used by the consistency checker (source line 218). -/
def expenseTest (e : Entry) : Bool :=
  containsTok e.date "経費"

/-- Classification outcome of one record. -/
inductive Label
  | sale
  | transfer
  | other
deriving DecidableEq, Repr

/-- The classifier (source lines 38-43): an `if / elif / else` chain. -/
def classify (e : Entry) : Label :=
  if saleTest e then Label.sale
  else if transferTest e then Label.transfer
  else Label.other

/-- The `sales_entries` list: records labelled `sale`, in file order. -/
def salesEntries (l : List Entry) : List Entry :=
  l.filter (fun e => classify e == Label.sale)

/-- The `transfer_entries` list: records labelled `transfer`, in file order. -/
def transferEntries (l : List Entry) : List Entry :=
  l.filter (fun e => classify e == Label.transfer)

/-- Numeric value of a digit string. -/
def digitsVal (ds : List Char) : Nat :=
  ds.foldl (fun n c => 10 * n + (c.toNat - 48)) 0

/-- Python `int(s)` on an already-stripped, comma-free string: an optional sign
followed by at least one decimal digit; anything else raises, modelled as
`none`.  (CPython extras — unicode digits, embedded underscores — do not occur
in this data model and are treated as failures.) -/
def parseAmount (s : String) : Option Int :=
  match s.toList with
  | [] => none
  | '-' :: ds =>
    if !ds.isEmpty && ds.all Char.isDigit then some (-(digitsVal ds : Int)) else none
  | '+' :: ds =>
    if !ds.isEmpty && ds.all Char.isDigit then some ((digitsVal ds : Int)) else none
  | ds =>
    if ds.all Char.isDigit then some ((digitsVal ds : Int)) else none

/-- The anchored date regex `re.match(r'(\d{4}/\d{2}/\d{2})', s)` (source lines
63, 75, 107): the leading ten characters when they form `YYYY/MM/DD`. -/
def dateOnly (s : String) : Option String :=
  match s.toList with
  | y₁ :: y₂ :: y₃ :: y₄ :: '/' :: m₁ :: m₂ :: '/' :: d₁ :: d₂ :: _ =>
    if [y₁, y₂, y₃, y₄, m₁, m₂, d₁, d₂].all Char.isDigit then
      some (String.mk [y₁, y₂, y₃, y₄, '/', m₁, m₂, '/', d₁, d₂])
    else none
  | _ => none

/-- The anchored month regex `re.match(r'(\d{4}/\d{2})', s)` (source line 167). -/
def monthOnly (s : String) : Option String :=
  match s.toList with
  | y₁ :: y₂ :: y₃ :: y₄ :: '/' :: m₁ :: m₂ :: _ =>
    if [y₁, y₂, y₃, y₄, m₁, m₂].all Char.isDigit then
      some (String.mk [y₁, y₂, y₃, y₄, '/', m₁, m₂])
    else none
  | _ => none

/-- The grouping key of source lines 66 and 78: the f-string `f"{date}_{amount}"`
is in bijection with the pair `(date_only, amount)` because the date part is
always exactly ten characters, so the key is modelled as the pair. -/
abbrev MatchKey := String × Int

/-- Key derivation for the matcher (source lines 60-67 and 72-79): the amount
must parse as an integer (`int(...)` raises otherwise, skipping the record) and
the date must match the leading `YYYY/MM/DD` pattern. -/
def entryKey (e : Entry) : Option MatchKey :=
  match parseAmount e.amount, dateOnly e.date with
  | some a, some d => some (d, a)
  | _, _ => none

/-- Append an entry to its key's bucket, as `defaultdict(list)` does: the bucket
order is file order and the key order is first-occurrence order. -/
def addToGroup {κ : Type} [DecidableEq κ] (g : List (κ × List Entry)) (k : κ) (e : Entry) :
    List (κ × List Entry) :=
  match g with
  | [] => [(k, [e])]
  | (k', es) :: rest =>
    if k' = k then (k', es ++ [e]) :: rest else (k', es) :: addToGroup rest k e

/-- The `sales_by_date_amount` / `transfer_by_date_amount` mappings (source
lines 56-81), as insertion-ordered association lists. -/
def buildGroups (l : List Entry) : List (MatchKey × List Entry) :=
  l.foldl
    (fun g e =>
      match entryKey e with
      | some k => addToGroup g k e
      | none => g)
    []

/-- Dictionary lookup with default `[]` (`transfer_by_date_amount.get(key, [])`,
source line 88). -/
def getGroup (g : List (MatchKey × List Entry)) (k : MatchKey) : List Entry :=
  match g.find? (fun p => decide (p.1 = k)) with
  | some p => p.2
  | none => []

/-- One iteration of the matching loop (source lines 87-93): count
`min(len(sales), len(transfers))` matches and append the positional surplus
`sales[len(transfers):]` to the unmatched list. -/
def matchStep (tg : List (MatchKey × List Entry)) (acc : Nat × List Entry)
    (p : MatchKey × List Entry) : Nat × List Entry :=
  (acc.1 + min p.2.length (getGroup tg p.1).length,
   acc.2 ++ p.2.drop (getGroup tg p.1).length)

/-- The matcher (source lines 56-93): `(matched_count, unmatched_sales)` before
the final sort. -/
def matchResult (l : List Entry) : Nat × List Entry :=
  (buildGroups (salesEntries l)).foldl (matchStep (buildGroups (transferEntries l))) (0, [])

/-- Lexicographic comparison of character lists by code point, which is how
Python compares the date strings in the sort keys. -/
def strLtB : List Char → List Char → Bool
  | [], [] => false
  | [], _ :: _ => true
  | _ :: _, [] => false
  | a :: as, b :: bs => if a < b then true else if b < a then false else strLtB as bs

/-- The order of `unmatched_sales.sort(key=lambda x: (x['date'], x['no']))`
(source line 102): Python tuple comparison on the raw date string (time-of-day
included) and the sequence number. -/
def reportLe (e₁ e₂ : Entry) : Prop :=
  strLtB e₁.date.toList e₂.date.toList = true ∨ (e₁.date = e₂.date ∧ e₁.no ≤ e₂.no)

instance : DecidableRel reportLe := fun e₁ e₂ => by
  unfold reportLe
  infer_instance

/-- The reported unmatched-sales list: the matcher's surplus, stably sorted by
`(date, no)` (source line 102; Python's sort is stable, as is insertion sort). -/
def unmatchedSales (l : List Entry) : List Entry :=
  List.insertionSort reportLe (matchResult l).2

/-- The ordering the specification claims for the final listing: by
`(date_only, sequence)`, i.e. the calendar date without time-of-day.  Stated
from the spec's words, to be compared against `reportLe`. -/
def specLe (e₁ e₂ : Entry) : Prop :=
  strLtB ((dateOnly e₁.date).getD "").toList ((dateOnly e₂.date).getD "").toList = true ∨
    ((dateOnly e₁.date).getD "" = (dateOnly e₂.date).getD "" ∧ e₁.no ≤ e₂.no)

instance : DecidableRel specLe := fun e₁ e₂ => by
  unfold specLe
  infer_instance

/-- The unmatched-sales listing as the specification describes it: the surplus
re-sorted by `(date_only, sequence)`.  Stated from the spec's words. -/
def specSortedUnmatched (l : List Entry) : List Entry :=
  List.insertionSort specLe (matchResult l).2

/-- The claim C1 speaks of sales filtered by the date pattern alone; the code
additionally requires the amount to parse (`int(...)` at source line 61 runs
before the date match).  Stated from the spec's words, to be compared with the
code's filtering. -/
def dateValidSales (l : List Entry) : List Entry :=
  (salesEntries l).filter (fun e => (dateOnly e.date).isSome)

/-- Regex word character (`\w` for the identifier data: ASCII letters, digits,
underscore), used to model the `\b` boundaries of `\b\d{9,}\b`. -/
def isWordChar (c : Char) : Bool :=
  c.isAlphanum || c = '_'

/-- The `\b` after `\d{9,}`: satisfied at end of input or before a non-word
character. -/
def boundaryB : List Char → Bool
  | [] => true
  | c :: _ => !isWordChar c

/-- Fuelled scanner for a pattern `c\d{8,}` with `c` one of `m`, `z`, `d`
(source lines 187-190): every non-overlapping occurrence of the tag character
followed by a maximal run of at least eight digits, left to right; scanning
resumes after each match, exactly as `findall` does.  Every step consumes at
least one character, so fuel equal to the input length is sufficient. -/
def findTagRunsF (c : Char) : Nat → List Char → List String
  | 0, _ => []
  | _, [] => []
  | fuel + 1, x :: xs =>
    if x = c then
      if 8 ≤ (xs.takeWhile Char.isDigit).length then
        String.mk (x :: xs.takeWhile Char.isDigit) ::
          findTagRunsF c fuel (xs.dropWhile Char.isDigit)
      else findTagRunsF c fuel xs
    else findTagRunsF c fuel xs

/-- `re.findall` for `c\d{8,}` on a full input. -/
def findTagRuns (c : Char) (l : List Char) : List String :=
  findTagRunsF c l.length l

/-- Fuelled scanner for `re.findall(r'order_[A-Za-z0-9]+', s)` (source line
188): every non-overlapping occurrence of the literal `order_` followed by a
maximal non-empty alphanumeric run. -/
def findOrderRunsF : Nat → List Char → List String
  | 0, _ => []
  | _, [] => []
  | fuel + 1, x :: xs =>
    if "order_".toList.isPrefixOf (x :: xs) then
      if ((x :: xs).drop 6).takeWhile Char.isAlphanum = [] then findOrderRunsF fuel xs
      else
        String.mk ("order_".toList ++ ((x :: xs).drop 6).takeWhile Char.isAlphanum) ::
          findOrderRunsF fuel (((x :: xs).drop 6).dropWhile Char.isAlphanum)
    else findOrderRunsF fuel xs

/-- `re.findall(r'order_[A-Za-z0-9]+', s)` on a full input. -/
def findOrderRuns (l : List Char) : List String :=
  findOrderRunsF l.length l

/-- Fuelled scanner for `re.findall(r'\b\d{9,}\b', s)` (source line 191):
maximal digit runs of length at least nine whose neighbours are non-word
characters (or the ends of the string).  `prevWord` records whether the
character before the current position is a word character; a greedy `\d{9,}`
cannot backtrack into a satisfied `\b`, so the matches are exactly these
runs. -/
def findNumRunsF : Nat → Bool → List Char → List String
  | 0, _, _ => []
  | _, _, [] => []
  | fuel + 1, prevWord, x :: xs =>
    if x.isDigit then
      if prevWord then findNumRunsF fuel true xs
      else
        if 9 ≤ (x :: xs.takeWhile Char.isDigit).length &&
            boundaryB (xs.dropWhile Char.isDigit) then
          String.mk (x :: xs.takeWhile Char.isDigit) ::
            findNumRunsF fuel true (xs.dropWhile Char.isDigit)
        else findNumRunsF fuel true (xs.dropWhile Char.isDigit)
    else findNumRunsF fuel (isWordChar x) xs

/-- `re.findall(r'\b\d{9,}\b', s)` on a full input. -/
def findNumRuns (l : List Char) : List String :=
  findNumRunsF l.length false l

/-- The `found_ids` list (source lines 186-197): all five patterns' `findall`
results concatenated in the fixed priority order. -/
def foundIds (desc : String) : List String :=
  findTagRuns 'm' desc.toList ++ findOrderRuns desc.toList ++
    findTagRuns 'z' desc.toList ++ findTagRuns 'd' desc.toList ++
    findNumRuns desc.toList

/-- The identifier extractor (source lines 199-201): `found_ids[0]` when any
pattern matched, otherwise no identifier. -/
def extractId (desc : String) : Option String :=
  (foundIds desc).head?

/-- Membership of a record in the transaction group of `id`
(`transactions_by_id[id]`, source lines 181-202): `defaultdict` appends in file
order, so the group is the file-ordered sublist of records whose extracted
identifier is `id`. -/
def groupEntries (l : List Entry) (id : String) : List Entry :=
  l.filter (fun e => decide (extractId e.description = some id))

/-- Fuelled first-occurrence deduplication; every step consumes one element, so
fuel equal to the input length is sufficient. -/
def firstDedupF : Nat → List String → List String
  | 0, _ => []
  | _, [] => []
  | fuel + 1, x :: xs => x :: firstDedupF fuel (xs.filter (fun y => !decide (y = x)))

/-- First-occurrence deduplication, the key order of a Python dict. -/
def firstDedup (l : List String) : List String :=
  firstDedupF l.length l

/-- The keys of `transactions_by_id` in iteration order (first occurrence of
each extracted identifier over the full record list). -/
def transactionIds (l : List Entry) : List String :=
  firstDedup (l.filterMap (fun e => extractId e.description))

/-- Per-entry contribution to `(sales_total, expense_total, transfer_total)`
(source lines 213-223): the `try/except` skips non-integer amounts, and the
`if/elif/elif` chain books the amount under at most one total, sale first, then
expense, then transfer. -/
def contrib (e : Entry) : Int × Int × Int :=
  match parseAmount e.amount with
  | none => (0, 0, 0)
  | some a =>
    if saleTest e then (a, 0, 0)
    else if expenseTest e then (0, a, 0)
    else if transferTest e then (0, 0, a)
    else (0, 0, 0)

/-- The three accumulated totals of the checker's inner loop (source lines
209-223). -/
def groupTotals (g : List Entry) : Int × Int × Int :=
  g.foldl (fun t e => (t.1 + (contrib e).1, t.2.1 + (contrib e).2.1, t.2.2 + (contrib e).2.2))
    (0, 0, 0)

/-- `sales_total` of a transaction group. -/
def salesTotal (g : List Entry) : Int :=
  (groupTotals g).1

/-- `expense_total` of a transaction group. -/
def expenseTotal (g : List Entry) : Int :=
  (groupTotals g).2.1

/-- `transfer_total` of a transaction group. -/
def transferTotal (g : List Entry) : Int :=
  (groupTotals g).2.2

/-- The consistency checker's flagging condition (source lines 207-239): the
group needs at least three entries, a positive transfer total and a positive
sales total, and a discrepancy beyond the one-yen tolerance. -/
def flagged (g : List Entry) : Bool :=
  if 3 ≤ g.length then
    if 0 < transferTotal g ∧ 0 < salesTotal g then
      decide (1 < (transferTotal g - (salesTotal g - expenseTotal g)).natAbs)
    else false
  else false

/-- One reported inconsistency (source lines 231-239). -/
structure Inconsistency where
  id : String
  sales : Int
  expenses : Int
  transfer : Int
  expected : Int
  difference : Int
  entries : Nat
deriving DecidableEq, Repr

/-- The record appended for a flagged group (source lines 231-239). -/
def mkInconsistency (id : String) (g : List Entry) : Inconsistency :=
  ⟨id, salesTotal g, expenseTotal g, transferTotal g, salesTotal g - expenseTotal g,
    transferTotal g - (salesTotal g - expenseTotal g), g.length⟩

/-- The `inconsistencies` list before sorting (source lines 205-239), iterating
the transaction groups in dict order. -/
def inconsistencies (l : List Entry) : List Inconsistency :=
  (transactionIds l).filterMap (fun id =>
    if flagged (groupEntries l id) then some (mkInconsistency id (groupEntries l id)) else none)

/-- The order of `inconsistencies.sort(key=lambda x: abs(x['difference']),
reverse=True)` (source line 243): by absolute discrepancy, descending. -/
def incLe (i₁ i₂ : Inconsistency) : Prop :=
  i₂.difference.natAbs ≤ i₁.difference.natAbs

instance : DecidableRel incLe := fun i₁ i₂ => by
  unfold incLe
  infer_instance

/-- The reported inconsistency list (source line 243; stable descending sort). -/
def sortedInconsistencies (l : List Entry) : List Inconsistency :=
  List.insertionSort incLe (inconsistencies l)

/-- Bump a counter in a `defaultdict(int)` (source lines 165-170). -/
def bumpCount (g : List (String × Nat)) (k : String) : List (String × Nat) :=
  match g with
  | [] => [(k, 1)]
  | (k', n) :: rest =>
    if k' = k then (k', n + 1) :: rest else (k', n) :: bumpCount rest k

/-- `unmatched_by_date` (source lines 105-110), over the sorted unmatched list. -/
def unmatchedByDate (l : List Entry) : List (String × List Entry) :=
  (unmatchedSales l).foldl
    (fun g e =>
      match dateOnly e.date with
      | some d => addToGroup g d e
      | none => g)
    []

/-- `unmatched_by_counterparty` (source lines 135-137). -/
def unmatchedByCounterparty (l : List Entry) : List (String × List Entry) :=
  (unmatchedSales l).foldl (fun g e => addToGroup g e.counterparty e) []

/-- Display order of the counterparty breakdown (source lines 140-141): by
group size, descending, stable. -/
def cpLe (p₁ p₂ : String × List Entry) : Prop :=
  p₂.2.length ≤ p₁.2.length

instance : DecidableRel cpLe := fun p₁ p₂ => by
  unfold cpLe
  infer_instance

/-- The counterparty breakdown as reported (source lines 139-144). -/
def sortedByCounterparty (l : List Entry) : List (String × List Entry) :=
  List.insertionSort cpLe (unmatchedByCounterparty l)

/-- `unmatched_amounts` (source lines 147-152): the `try/except` keeps exactly
the amounts that parse. -/
def unmatchedAmounts (l : List Entry) : List Int :=
  (unmatchedSales l).filterMap (fun e => parseAmount e.amount)

/-- `unmatched_by_month` counts (source lines 165-170). -/
def unmatchedByMonth (l : List Entry) : List (String × Nat) :=
  (unmatchedSales l).foldl
    (fun g e =>
      match monthOnly e.date with
      | some m => bumpCount g m
      | none => g)
    []

/-- Month display order (source line 173): keys ascending. -/
def monthLe (p₁ p₂ : String × Nat) : Prop :=
  strLtB p₁.1.toList p₂.1.toList = true ∨ p₁.1 = p₂.1

instance : DecidableRel monthLe := fun p₁ p₂ => by
  unfold monthLe
  infer_instance

/-- The month breakdown as reported. -/
def sortedByMonth (l : List Entry) : List (String × Nat) :=
  List.insertionSort monthLe (unmatchedByMonth l)

/-- The data content of the printed report, in its section order: entry counts
(lines 49-52), match totals (lines 95-96), the sorted unmatched listing and its
date grouping (lines 98-129), the counterparty and amount pattern analyses
(lines 132-159, the mean kept as the exact pair sum/count), the month breakdown
(lines 162-175), the sorted inconsistency listing (lines 241-255) and the
summary totals (lines 260-274).  Text layout, the 30-entry and top-10
truncations and float rendering are formatting of this same data and are not
re-modelled. -/
structure Report where
  totalEntries : Nat
  salesCount : Nat
  transferCount : Nat
  matchedCount : Nat
  unmatched : List Entry
  byDate : List (String × List Entry)
  byCounterparty : List (String × List Entry)
  amounts : List Int
  amountSum : Int
  byMonth : List (String × Nat)
  inconsistencyList : List Inconsistency
  discrepancySum : Nat
deriving DecidableEq, Repr

/-- The full analysis (source lines 9-274) as a function from the loaded record
list to the report's data. -/
def fullReport (l : List Entry) : Report :=
  ⟨l.length, (salesEntries l).length, (transferEntries l).length, (matchResult l).1,
    unmatchedSales l, unmatchedByDate l, sortedByCounterparty l, unmatchedAmounts l,
    (unmatchedAmounts l).sum, sortedByMonth l, sortedInconsistencies l,
    ((sortedInconsistencies l).map (fun i => i.difference.natAbs)).sum⟩

/-- Sample sale record: 1000 yen on 2025/07/01, identifier `m12345678`. -/
def eSale : Entry :=
  ⟨1, "2025/07/01 売上", "振込申請", "売上", "商品 m12345678", "買い手A", "メルペイ", "1000"⟩

/-- Sample expense record of the same transaction: 100 yen fee. -/
def eExpense : Entry :=
  ⟨2, "2025/07/02 経費", "手数料", "販売手数料", "商品 m12345678", "", "", "100"⟩

/-- Sample transfer record of the same transaction: 850 yen settled. -/
def eTransferRec : Entry :=
  ⟨3, "2025/07/31 振替", "振込", "振替", "商品 m12345678", "", "", "850"⟩

/-- The three-record transaction group built from the samples (the spec's §8
scenario: sales 1000, expenses 100, transfer 850). -/
def gScenario : List Entry :=
  [eSale, eExpense, eTransferRec]

/-- A sale record whose date matches the leading date pattern but whose amount
string does not parse as an integer. -/
def eBadAmount : Entry :=
  ⟨4, "2025/07/01 売上", "", "売上", "", "", "", "abc"⟩

/-- A sale at 10:00 with the smaller sequence number. -/
def eLate : Entry :=
  ⟨1, "2025/07/01 10:00 売上", "", "売上", "", "", "", "1000"⟩

/-- A sale at 09:00 with the larger sequence number. -/
def eEarly : Entry :=
  ⟨2, "2025/07/01 09:00 売上", "", "売上", "", "", "", "2000"⟩

theorem saleTest_excl_transferTest (e : Entry) : (saleTest e && transferTest e) = false := by
  cases hs : saleTest e with
  | false => rfl
  | true =>
    have hcat : e.category = "売上" := by
      unfold saleTest at hs
      simp at hs
      exact hs.2
    have hct : containsTok e.category "振替" = false := by rw [hcat]; rfl
    have htt : transferTest e = false := by
      unfold transferTest
      rw [hct, Bool.and_false]
    rw [htt, Bool.and_false]

theorem strLtB_eq_of_not (as : List Char) : ∀ bs, strLtB as bs = false → strLtB bs as = false →
    as = bs := by
  induction as with
  | nil =>
    intro bs h₁ h₂
    cases bs with
    | nil => rfl
    | cons b bs => simp [strLtB] at h₁
  | cons a as ih =>
    intro bs h₁ h₂
    cases bs with
    | nil => simp [strLtB] at h₂
    | cons b bs =>
      by_cases hab : a < b
      · simp [strLtB, hab] at h₁
      · by_cases hba : b < a
        · simp [strLtB, hba] at h₂
        · have heq : a = b := le_antisymm (le_of_not_lt hba) (le_of_not_lt hab)
          subst heq
          simp [strLtB, lt_irrefl] at h₁ h₂
          rw [ih bs h₁ h₂]

theorem strLtB_trans (as : List Char) : ∀ bs cs, strLtB as bs = true → strLtB bs cs = true →
    strLtB as cs = true := by
  induction as with
  | nil =>
    intro bs cs h₁ h₂
    cases bs with
    | nil => simp [strLtB] at h₁
    | cons b bs =>
      cases cs with
      | nil => simp [strLtB] at h₂
      | cons c cs => simp [strLtB]
  | cons a as ih =>
    intro bs cs h₁ h₂
    cases bs with
    | nil => simp [strLtB] at h₁
    | cons b bs =>
      cases cs with
      | nil => simp [strLtB] at h₂
      | cons c cs =>
        by_cases hab : a < b
        · by_cases hbc : b < c
          · simp [strLtB, lt_trans hab hbc]
          · by_cases hcb : c < b
            · simp [strLtB, hbc, hcb] at h₂
            · have heq : b = c := le_antisymm (le_of_not_lt hcb) (le_of_not_lt hbc)
              subst heq
              simp [strLtB, hab]
        · by_cases hba : b < a
          · simp [strLtB, hab, hba] at h₁
          · have heq : a = b := le_antisymm (le_of_not_lt hba) (le_of_not_lt hab)
            subst heq
            simp only [strLtB, lt_irrefl, if_false] at h₁
            by_cases hac : a < c
            · simp [strLtB, hac]
            · by_cases hca : c < a
              · simp [strLtB, hac, hca] at h₂
              · have heq₂ : a = c := le_antisymm (le_of_not_lt hca) (le_of_not_lt hac)
                subst heq₂
                simp only [strLtB, lt_irrefl, if_false] at h₂ ⊢
                exact ih bs cs h₁ h₂

instance : IsTotal Entry reportLe where
  total e₁ e₂ := by
    by_cases h₁ : strLtB e₁.date.toList e₂.date.toList = true
    · exact Or.inl (Or.inl h₁)
    · by_cases h₂ : strLtB e₂.date.toList e₁.date.toList = true
      · exact Or.inr (Or.inl h₂)
      · have hdq : e₁.date = e₂.date :=
          String.ext (strLtB_eq_of_not _ _ (by simpa using h₁) (by simpa using h₂))
        cases Nat.le_total e₁.no e₂.no with
        | inl h => exact Or.inl (Or.inr ⟨hdq, h⟩)
        | inr h => exact Or.inr (Or.inr ⟨hdq.symm, h⟩)

instance : IsTrans Entry reportLe where
  trans e₁ e₂ e₃ h₁₂ h₂₃ := by
    cases h₁₂ with
    | inl h₁ =>
      cases h₂₃ with
      | inl h₂ => exact Or.inl (strLtB_trans _ _ _ h₁ h₂)
      | inr h₂ => exact Or.inl (by rw [← h₂.1]; exact h₁)
    | inr h₁ =>
      cases h₂₃ with
      | inl h₂ => exact Or.inl (by rw [h₁.1]; exact h₂)
      | inr h₂ => exact Or.inr ⟨h₁.1.trans h₂.1, le_trans h₁.2 h₂.2⟩

theorem addToGroup_sizes {κ : Type} [DecidableEq κ] (k : κ) (e : Entry) :
    ∀ g : List (κ × List Entry),
      ((addToGroup g k e).map (fun p => p.2.length)).sum
        = ((g.map (fun p => p.2.length)).sum) + 1 := by
  intro g
  induction g with
  | nil => simp [addToGroup]
  | cons p rest ih =>
    obtain ⟨k', es⟩ := p
    by_cases h : k' = k
    · simp [addToGroup, h]
      omega
    · simp [addToGroup, h, ih]
      omega

theorem buildGroups_sizes_aux (l : List Entry) :
    ∀ g : List (MatchKey × List Entry),
      ((l.foldl
          (fun g e =>
            match entryKey e with
            | some k => addToGroup g k e
            | none => g)
          g).map (fun p => p.2.length)).sum
        = ((g.map (fun p => p.2.length)).sum)
            + (l.filter (fun e => (entryKey e).isSome)).length := by
  induction l with
  | nil => intro g; simp
  | cons e l ih =>
    intro g
    rw [List.foldl_cons, List.filter_cons]
    cases hk : entryKey e with
    | some k =>
      have hsome : (entryKey e).isSome = true := by rw [hk]; rfl
      simp only [hk, hsome, if_pos]
      rw [ih (addToGroup g k e), addToGroup_sizes]
      simp
      omega
    | none =>
      have hnone : (entryKey e).isSome = false := by rw [hk]; rfl
      simp only [hk, hnone]
      rw [ih g]
      simp

theorem matchFold_spec (tg : List (MatchKey × List Entry)) (sg : List (MatchKey × List Entry)) :
    ∀ acc : Nat × List Entry,
      (sg.foldl (matchStep tg) acc).1
          = acc.1 + (sg.map (fun p => min p.2.length (getGroup tg p.1).length)).sum ∧
        (sg.foldl (matchStep tg) acc).2
          = acc.2 ++ sg.flatMap (fun p => p.2.drop (getGroup tg p.1).length) := by
  induction sg with
  | nil => intro acc; simp
  | cons p sg ih =>
    intro acc
    rw [List.foldl_cons]
    constructor
    · rw [(ih (matchStep tg acc p)).1]
      simp [matchStep]
      omega
    · rw [(ih (matchStep tg acc p)).2]
      simp [matchStep, List.flatMap_cons, List.append_assoc]

theorem sum_map_add_nat {α : Type} (f g : α → Nat) (l : List α) :
    (l.map (fun x => f x + g x)).sum = (l.map f).sum + (l.map g).sum := by
  induction l with
  | nil => rfl
  | cons x l ih =>
    simp [ih]
    omega

theorem groupTotals_fold (g : List Entry) :
    ∀ t : Int × Int × Int,
      g.foldl
          (fun t e => (t.1 + (contrib e).1, t.2.1 + (contrib e).2.1, t.2.2 + (contrib e).2.2)) t
        = (t.1 + (g.map (fun e => (contrib e).1)).sum,
           t.2.1 + (g.map (fun e => (contrib e).2.1)).sum,
           t.2.2 + (g.map (fun e => (contrib e).2.2)).sum) := by
  induction g with
  | nil => intro t; simp
  | cons e g ih =>
    intro t
    rw [List.foldl_cons, ih]
    simp
    refine ⟨by ring, by ring, by ring⟩

/-- C2: a transaction group is flagged as inconsistent exactly when it has at
least 3 member records, a positive transfer total, a positive sales total and an
absolute discrepancy above 1 yen; in particular a 2-member group is never
evaluated and a group with a zero sales or transfer total is never flagged. -/
theorem flagged_iff_thresholds (g : List Entry) :
    (flagged g = true ↔
      3 ≤ g.length ∧ 0 < transferTotal g ∧ 0 < salesTotal g ∧
        1 < (transferTotal g - (salesTotal g - expenseTotal g)).natAbs) ∧
    (g.length = 2 → flagged g = false) ∧
    ((salesTotal g = 0 ∨ transferTotal g = 0) → flagged g = false) := by
  have hiff : flagged g = true ↔
      3 ≤ g.length ∧ 0 < transferTotal g ∧ 0 < salesTotal g ∧
        1 < (transferTotal g - (salesTotal g - expenseTotal g)).natAbs := by
    unfold flagged
    by_cases h₃ : 3 ≤ g.length
    · rw [if_pos h₃]
      by_cases hts : 0 < transferTotal g ∧ 0 < salesTotal g
      · rw [if_pos hts]
        constructor
        · intro h
          exact ⟨h₃, hts.1, hts.2, of_decide_eq_true h⟩
        · intro h
          exact decide_eq_true h.2.2.2
      · rw [if_neg hts]
        constructor
        · intro h
          exact absurd h (by simp)
        · intro h
          exact absurd ⟨h.2.1, h.2.2.1⟩ hts
    · rw [if_neg h₃]
      constructor
      · intro h
        exact absurd h (by simp)
      · intro h
        exact absurd h.1 h₃
  refine ⟨hiff, ?_, ?_⟩
  · intro h₂
    cases hf : flagged g with
    | false => rfl
    | true => exact absurd (hiff.mp hf).1 (by omega)
  · intro h₀
    cases hf : flagged g with
    | false => rfl
    | true =>
      obtain ⟨-, ht, hs, -⟩ := hiff.mp hf
      cases h₀ with
      | inl h => exact absurd hs (by omega)
      | inr h => exact absurd ht (by omega)

/-- C2 witness: the spec's §8 scenario (sales 1000, expenses 100, transfer 850)
is flagged. -/
theorem flagged_iff_thresholds_witness : flagged gScenario = true :=
  (flagged_iff_thresholds gScenario).1.mpr (by decide)

/-- C3: a record is labelled `sale` exactly when the sale condition holds,
`transfer` exactly when the transfer condition holds, and `other` otherwise; an
`other` record enters neither the sales nor the transfers list. -/
theorem classify_rules (e : Entry) (l : List Entry) :
    (classify e = Label.sale ↔ saleTest e = true) ∧
    (classify e = Label.transfer ↔ transferTest e = true) ∧
    (classify e = Label.other ↔ (saleTest e = false ∧ transferTest e = false)) ∧
    (classify e = Label.other →
      salesEntries (e :: l) = salesEntries l ∧ transferEntries (e :: l) = transferEntries l) := by
  cases hs : saleTest e with
  | true =>
    have htt : transferTest e = false := by
      have hx := saleTest_excl_transferTest e
      rw [hs] at hx
      simpa using hx
    refine ⟨by simp [classify, hs], by simp [classify, hs, htt], by simp [classify, hs], ?_⟩
    intro h
    exact absurd h (by simp [classify, hs])
  | false =>
    cases ht : transferTest e with
    | true =>
      refine ⟨by simp [classify, hs, ht], by simp [classify, hs, ht],
        by simp [classify, hs, ht], ?_⟩
      intro h
      exact absurd h (by simp [classify, hs, ht])
    | false =>
      refine ⟨by simp [classify, hs, ht], by simp [classify, hs, ht],
        by simp [classify, hs, ht], ?_⟩
      intro h
      constructor
      · unfold salesEntries
        rw [List.filter_cons]
        simp [classify, hs, ht]
      · unfold transferEntries
        rw [List.filter_cons]
        simp [classify, hs, ht]

/-- C3 witness: the three sample records land in the three labels. -/
theorem classify_rules_witness :
    classify eSale = Label.sale ∧ classify eTransferRec = Label.transfer ∧
      classify eExpense = Label.other :=
  ⟨(classify_rules eSale []).1.mpr (by decide),
   (classify_rules eTransferRec []).2.1.mpr (by decide),
   (classify_rules eExpense []).2.2.1.mpr (by decide)⟩

/-- C9: the sale and transfer conditions are mutually exclusive — a category
equal to the sale marker cannot contain the transfer marker — so the sales list
and the transfers list are disjoint. -/
theorem sale_transfer_disjoint (e : Entry) (l : List Entry) :
    (saleTest e && transferTest e) = false ∧
    (salesEntries l).filter transferTest = [] ∧
    (transferEntries l).filter saleTest = [] := by
  refine ⟨saleTest_excl_transferTest e, ?_, ?_⟩
  · rw [List.filter_eq_nil_iff]
    intro a ha
    unfold salesEntries at ha
    have hc : classify a = Label.sale := eq_of_beq (List.mem_filter.mp ha).2
    have hsa : saleTest a = true := by
      by_contra hns
      have hf : saleTest a = false := by simpa using hns
      cases htt : transferTest a with
      | true => simp [classify, hf, htt] at hc
      | false => simp [classify, hf, htt] at hc
    have hx := saleTest_excl_transferTest a
    rw [hsa] at hx
    simpa using hx
  · rw [List.filter_eq_nil_iff]
    intro a ha
    unfold transferEntries at ha
    have hc : classify a = Label.transfer := eq_of_beq (List.mem_filter.mp ha).2
    intro hsa
    simp [classify, hsa] at hc

/-- C10: inside the consistency checker each group member contributes its amount
to at most one total, sale first, then expense, then transfer; a member whose
amount does not parse contributes to none; the three totals are the sums of
these contributions. -/
theorem contrib_priority (e : Entry) (a : Int) (g : List Entry) :
    (parseAmount e.amount = none → contrib e = (0, 0, 0)) ∧
    (parseAmount e.amount = some a → saleTest e = true → contrib e = (a, 0, 0)) ∧
    (parseAmount e.amount = some a → saleTest e = false → expenseTest e = true →
      contrib e = (0, a, 0)) ∧
    (parseAmount e.amount = some a → saleTest e = false → expenseTest e = false →
      transferTest e = true → contrib e = (0, 0, a)) ∧
    (parseAmount e.amount = some a → saleTest e = false → expenseTest e = false →
      transferTest e = false → contrib e = (0, 0, 0)) ∧
    groupTotals g
      = ((g.map (fun x => (contrib x).1)).sum,
         (g.map (fun x => (contrib x).2.1)).sum,
         (g.map (fun x => (contrib x).2.2)).sum) := by
  refine ⟨?_, ?_, ?_, ?_, ?_, ?_⟩
  · intro h
    unfold contrib
    rw [h]
  · intro h hs
    unfold contrib
    rw [h]
    simp [hs]
  · intro h hs hx
    unfold contrib
    rw [h]
    simp [hs, hx]
  · intro h hs hx ht
    unfold contrib
    rw [h]
    simp [hs, hx, ht]
  · intro h hs hx ht
    unfold contrib
    rw [h]
    simp [hs, hx, ht]
  · unfold groupTotals
    rw [groupTotals_fold]
    simp

/-- C10 witness: the sample sale, expense, transfer and malformed-amount records
contribute to exactly the predicted totals. -/
theorem contrib_priority_witness :
    contrib eSale = (1000, 0, 0) ∧ contrib eExpense = (0, 100, 0) ∧
      contrib eTransferRec = (0, 0, 850) ∧ contrib eBadAmount = (0, 0, 0) :=
  ⟨(contrib_priority eSale 1000 []).2.1 (by decide) (by decide),
   (contrib_priority eExpense 100 []).2.2.1 (by decide) (by decide) (by decide),
   (contrib_priority eTransferRec 850 []).2.2.2.1 (by decide) (by decide) (by decide) (by decide),
   (contrib_priority eBadAmount 0 []).1 (by decide)⟩

/-- C1 counterexample: one sale whose date matches the leading pattern but whose
amount does not parse is counted by date-pattern filtering alone, yet
contributes to neither the matched count nor the unmatched list, so the claimed
identity fails. -/
theorem matched_add_unmatched_counterexample :
    (matchResult [eBadAmount]).1 + (matchResult [eBadAmount]).2.length
      ≠ (dateValidSales [eBadAmount]).length := by decide

/-- C1 amended: the matched count plus the number of unmatched sales equals the
number of sale records whose amount parses as an integer and whose date matches
the leading date pattern (the records the grouping actually keeps). -/
theorem matched_add_unmatched_eq_keyed_sales (l : List Entry) :
    (matchResult l).1 + (matchResult l).2.length
      = ((salesEntries l).filter (fun e => (entryKey e).isSome)).length := by
  unfold matchResult
  obtain ⟨h₁, h₂⟩ :=
    matchFold_spec (buildGroups (transferEntries l)) (buildGroups (salesEntries l)) (0, [])
  rw [h₁, h₂]
  simp only [List.nil_append, Nat.zero_add, List.length_flatMap]
  rw [← sum_map_add_nat]
  have hfun :
      (fun p : MatchKey × List Entry =>
          min p.2.length (getGroup (buildGroups (transferEntries l)) p.1).length +
            (List.length ∘ fun p : MatchKey × List Entry =>
                p.2.drop (getGroup (buildGroups (transferEntries l)) p.1).length) p)
        = fun p : MatchKey × List Entry => p.2.length := by
    funext p
    simp [List.length_drop]
    omega
  rw [hfun]
  unfold buildGroups
  simpa using buildGroups_sizes_aux (salesEntries l) []

/-- C4: the matcher's fold contributes, for each key of the sales mapping in
order, `min(|S|,|T|)` matches and the positional surplus `S[|T|:]`, with `T`
empty when the key is absent from the transfer mapping. -/
theorem matcher_per_key (l : List Entry) :
    (matchResult l).1
        = ((buildGroups (salesEntries l)).map
            (fun p => min p.2.length (getGroup (buildGroups (transferEntries l)) p.1).length)).sum ∧
      (matchResult l).2
        = (buildGroups (salesEntries l)).flatMap
            (fun p => p.2.drop (getGroup (buildGroups (transferEntries l)) p.1).length) := by
  unfold matchResult
  obtain ⟨h₁, h₂⟩ :=
    matchFold_spec (buildGroups (transferEntries l)) (buildGroups (salesEntries l)) (0, [])
  rw [h₁, h₂]
  simp

/-- C5 counterexample: two unmatched sales on the same calendar date, where the
later time-of-day carries the smaller sequence number, are reported in
time-of-day order, not in `(date_only, sequence)` order. -/
theorem unmatched_order_counterexample :
    unmatchedSales [eLate, eEarly] ≠ specSortedUnmatched [eLate, eEarly] := by decide

/-- C5 amended: the reported unmatched list is a permutation of the
concatenation of the per-key surplus slices, sorted ascending by the pair (full
date-time string, sequence number) — the sort key is the raw date field, not the
calendar date alone. -/
theorem unmatched_perm_and_sorted (l : List Entry) :
    (unmatchedSales l).Perm
        ((buildGroups (salesEntries l)).flatMap
          (fun p => p.2.drop (getGroup (buildGroups (transferEntries l)) p.1).length)) ∧
      List.Sorted reportLe (unmatchedSales l) := by
  constructor
  · have hp := List.perm_insertionSort reportLe (matchResult l).2
    have h₂ :
        (matchResult l).2
          = (buildGroups (salesEntries l)).flatMap
              (fun p => p.2.drop (getGroup (buildGroups (transferEntries l)) p.1).length) := by
      unfold matchResult
      rw [(matchFold_spec (buildGroups (transferEntries l)) (buildGroups (salesEntries l))
        (0, [])).2]
      simp
    unfold unmatchedSales
    rw [← h₂]
    exact hp
  · exact List.sorted_insertionSort reportLe (matchResult l).2

/-- C6 counterexample: on the spec's scenario string the extractor does not
return `order_AB123`. -/
theorem extractor_priority_counterexample :
    extractId "order_AB123 plus id m99999999" ≠ some "order_AB123" := by decide

/-- C6 amended: on that string the extractor returns `m99999999`, because the
`m`-digit pattern precedes the `order_` pattern in the fixed priority order. -/
theorem extractor_priority_scenario :
    extractId "order_AB123 plus id m99999999" = some "m99999999" := by decide

/-- C7: the extractor returns the first match of the highest-priority pattern
that matches at all, trying `m\d{8,}`, `order_[A-Za-z0-9]+`, `z\d{8,}`,
`d\d{8,}`, `\b\d{9,}\b` in that order (falling through to `none` when all five
yield nothing), and every member of a transaction group carries an extracted
identifier. -/
theorem extractId_priority (d : String) (l : List Entry) (id : String) :
    extractId d
        = (if findTagRuns 'm' d.toList = [] then
            if findOrderRuns d.toList = [] then
              if findTagRuns 'z' d.toList = [] then
                if findTagRuns 'd' d.toList = [] then (findNumRuns d.toList).head?
                else (findTagRuns 'd' d.toList).head?
              else (findTagRuns 'z' d.toList).head?
            else (findOrderRuns d.toList).head?
          else (findTagRuns 'm' d.toList).head?) ∧
      (groupEntries l id).all (fun e => (extractId e.description).isSome) = true := by
  constructor
  · unfold extractId foundIds
    cases h₁ : findTagRuns 'm' d.toList with
    | cons a t => simp [h₁]
    | nil =>
      cases h₂ : findOrderRuns d.toList with
      | cons a t => simp [h₁, h₂]
      | nil =>
        cases h₃ : findTagRuns 'z' d.toList with
        | cons a t => simp [h₁, h₂, h₃]
        | nil =>
          cases h₄ : findTagRuns 'd' d.toList with
          | cons a t => simp [h₁, h₂, h₃, h₄]
          | nil => simp [h₁, h₂, h₃, h₄]
  · rw [List.all_eq_true]
    intro e he
    unfold groupEntries at he
    have hid : extractId e.description = some id := of_decide_eq_true (List.mem_filter.mp he).2
    rw [hid]
    rfl

/-- C8: the analysis is a deterministic function of the loaded record list —
identical inputs give identical report data. -/
theorem analysis_deterministic (l₁ l₂ : List Entry) (h : l₁ = l₂) :
    fullReport l₁ = fullReport l₂ := by
  rw [h]

/-- C8 witness: two runs on the sample input agree. -/
theorem analysis_deterministic_witness : fullReport gScenario = fullReport gScenario :=
  analysis_deterministic gScenario gScenario rfl
